import Mathlib

/-!
Verification model of the miniHypervisor repository (nivoA and nivoC C sources).

Each definition below is a shallow embedding of a function or data structure of
src/nivoC/mini_hypervisor.c (or, where stated, src/nivoA/mini_hypervisor.c):

* the long-mode paging bootstrap (setup_long_mode) is modelled as the list of
  page-directory and page-table entries it writes plus the returned load address;
* the paravirtual file protocol (handle_file and its helpers) is modelled as a
  deterministic state machine over a per-guest state, parameterised by a host
  filesystem oracle (HostFS) standing for the access/open/close/read syscalls;
* exit_io is modelled by its return value (none when the C function falls off
  the end of the non-void function without executing a return statement) and by
  the byte it stores into the shared run region;
* init_hypervisor is modelled for both source levels by the outcome of the two
  fallible steps (open and ioctl), tracking whether the opened /dev/kvm
  descriptor is still open when the function returns;
* the process-wide file_mutex semaphore discipline is modelled as a small
  interleaving transition system over per-guest phases, with one atomic step
  per relevant C statement of start_file_operation / end_file_operation.

Sregs/regs programming and the KVM ioctl plumbing have no observable effect on
the claims treated here and are outside the model.
-/

/-! ### Constants from src/nivoC/mini_hypervisor.c -/

/-- Operation code OPEN (file protocol). -/
def OPEN : Int := 1

/-- Operation code CLOSE (file protocol). -/
def CLOSE : Int := 2

/-- Operation code READ (file protocol). -/
def READ : Int := 3

/-- Operation code WRITE (file protocol). -/
def WRITE : Int := 4

/-- Sentinel FINISH (file protocol). -/
def FINISH : Int := 0

/-- PDE64_PRESENT bit. -/
def PDE64_PRESENT : Nat := 1

/-- PDE64_RW bit (1U << 1). -/
def PDE64_RW : Nat := 1 <<< 1

/-- PDE64_USER bit (1U << 2). -/
def PDE64_USER : Nat := 1 <<< 2

/-- PDE64_PS bit (1U << 7). -/
def PDE64_PS : Nat := 1 <<< 7

/-- SIZE2MB = 2 * 1024 * 1024. -/
def SIZE2MB : Nat := 2 * 1024 * 1024

/-- Linux fcntl flag O_RDWR (also defined in guest.c). -/
def O_RDWR : Int := 2

/-- Linux fcntl flag O_WRONLY. -/
def O_WRONLY : Int := 1

/-- Linux fcntl flag O_TRUNC. -/
def O_TRUNC : Int := 512

/-- Linux fcntl flag O_APPEND. -/
def O_APPEND : Int := 1024

/-- Linux fcntl flag O_CREAT. -/
def O_CREAT : Int := 64

/-- The write-intent mask `O_RDWR | O_WRONLY | O_TRUNC | O_APPEND` tested in
opened_file_op_flags (mini_hypervisor.c line 483). -/
def writeMask : Int := Int.lor (Int.lor (Int.lor O_RDWR O_WRONLY) O_TRUNC) O_APPEND

/-! ### Long-mode paging bootstrap (setup_long_mode, lines 227-302) -/

/-- The `enum PageSize {MB2, KB4}` of the source. -/
inductive PageSize
  | MB2
  | KB4
deriving DecidableEq

/-- The paging state written into guest memory by setup_long_mode, plus the
returned image-load address.  `pd` lists the consecutive page-directory
entries written starting at PD index 0 (entries not listed are not written);
`pts` lists, for 4 KiB mode, the page tables in PD order as
(table base address, entries written starting at PT index 0). -/
structure PagingLayout where
  pml4_0 : Nat
  pdpt_0 : Nat
  pd : List Nat
  pts : List (Nat × List Nat)
  loadAddr : Nat
deriving Repr

/-- Inner loop of the 4 KiB branch (lines 275-280): starting from
`page_address = pa`, write up to `fuel` (= 512) page-table entries
`page_address | PDE64_PRESENT | PDE64_RW | PDE64_USER`, stopping early as soon
as `page_address > mem_size`.  Returns the entries written into this table and
the final `page_address`. -/
def fillPTgo : Nat → Nat → Nat → List Nat × Nat
  | 0, pa, _ => ([], pa)
  | fuel + 1, pa, memSize =>
    if pa > memSize then ([], pa)
    else
      let rest := fillPTgo fuel (pa + 0x1000) memSize
      ((pa ||| PDE64_PRESENT ||| PDE64_RW ||| PDE64_USER) :: rest.1, rest.2)

/-- Outer loop of the 4 KiB branch (lines 270-281): for each PD entry `e`, the
page-table base is `e & ~0xFFFUL` (cleared low 12 bits, here `e / 0x1000 *
0x1000`), and the table is filled by `fillPTgo 512` with the running
`page_address` threaded through. -/
def ptLoop : List Nat → Nat → Nat → List (Nat × List Nat) × Nat
  | [], pa, _ => ([], pa)
  | e :: es, pa, memSize =>
    let f := fillPTgo 512 pa memSize
    let rest := ptLoop es f.2 memSize
    ((e / 0x1000 * 0x1000, f.1) :: rest.1, rest.2)

/-- Model of setup_long_mode (lines 227-302).  PML4[0] and PDPT[0] are written
unconditionally (lines 250-252).  In the `MB2` branch, `page` is aligned to
`(page / SIZE2MB + 1) * SIZE2MB` (line 256) and `mem_size / SIZE2MB - 1`
PD super-page entries are written (lines 258-262; the for loop with induction
variable `i` and running `page_address` is rendered as a map over the index
range).  In the `KB4` branch, `mem_size / SIZE2MB` PD entries are written with
`page` starting at 0x3000 and incremented by 0x1000 per entry (lines 265-268),
then the page tables are filled by `ptLoop` (lines 270-281).  The returned
`page` (line 301) is the image-load address. -/
def setup_long_mode (memSize : Nat) (page_size : PageSize) : PagingLayout :=
  let pml4_0 := PDE64_PRESENT ||| PDE64_RW ||| PDE64_USER ||| 0x1000
  let pdpt_0 := PDE64_PRESENT ||| PDE64_RW ||| PDE64_USER ||| 0x2000
  match page_size with
  | PageSize.MB2 =>
    let page := (0x3000 / SIZE2MB + 1) * SIZE2MB
    { pml4_0 := pml4_0
      pdpt_0 := pdpt_0
      pd := (List.range (memSize / SIZE2MB - 1)).map fun i =>
        PDE64_PRESENT ||| PDE64_RW ||| PDE64_USER ||| PDE64_PS ||| (page + i * SIZE2MB)
      pts := []
      loadAddr := page }
  | PageSize.KB4 =>
    let n := memSize / SIZE2MB
    let pd := (List.range n).map fun i =>
      PDE64_PRESENT ||| PDE64_RW ||| PDE64_USER ||| (0x3000 + i * 0x1000)
    let page := 0x3000 + n * 0x1000
    let r := ptLoop pd page memSize
    { pml4_0 := pml4_0, pdpt_0 := pdpt_0, pd := pd, pts := r.1, loadAddr := page }

/-! ### Paravirtual file protocol engine (struct file, struct guest, handle_file) -/

/-- Model of `struct file` (lines 76-83).  The fixed `char ime[50]` buffer is
modelled by the list of bytes stored so far: the k-th element of `ime` is the
byte stored at buffer index k, so an element at index 50 or beyond records a
store outside the 50-byte buffer.  `cnt` is the source's counter. -/
structure FileRec where
  fd : Int
  flags : Int
  mode : Int
  cnt : Nat
  ime : List Int
deriving DecidableEq, Repr

/-- init_file (lines 376-393): cnt = 0, flags = mode = fd = -1; the list link
is represented by position in the guest's lists. -/
def init_file : FileRec := ⟨-1, -1, -1, 0, []⟩

/-- Model of the file-protocol part of `struct guest` (lines 86-98).  Each
allocated `struct file` node gets a fresh identifier; `heap` maps identifiers
to record contents and is never shrunk (so a freed node can still be read
through a stale pointer, as in the C process), `files` is the live linked list
`file_head`/`next` as the ordered list of identifiers, `current` is
`current_file` (`none` = NULL), `lock` is `vm->lock` and `token` records
whether this guest currently holds the process-wide `file_mutex` semaphore
(acquired in start_file_operation, released in end_file_operation). -/
structure GuestState where
  id : Nat
  lock : Int
  token : Bool
  heap : List (Nat × FileRec)
  files : List Nat
  current : Option Nat
  nextId : Nat
deriving DecidableEq, Repr

/-- Per-guest state after init_guest (lines 783-787): lock = 0, empty file
list, current_file = NULL. -/
def initGuest (vmId : Nat) : GuestState :=
  { id := vmId, lock := 0, token := false, heap := [], files := [], current := none, nextId := 0 }

/-- Host-side oracle for the syscalls made by the file engine: `existing` is
the set of host paths for which `access(path, F_OK) == 0`; `openFd path flags
mode` is the descriptor returned by `open(path, flags, mode)` (negative on
failure); `closeRes fd` the result of `close(fd)`; `readByte fd` the byte
delivered by `read(fd, &c, 1)` (`none` for a short read).  Paths are byte
strings (lists of char values). -/
structure HostFS where
  existing : List (List Int)
  openFd : List Int → Int → Int → Int
  closeRes : Int → Int
  readByte : Int → Option Int

/-- Bytes of a Lean string, as char values. -/
def strBytes (s : String) : List Int :=
  s.data.map fun c => (c.toNat : Int)

/-- The C string contained in a name buffer: its bytes up to the first null. -/
def cString (buf : List Int) : List Int :=
  buf.takeWhile fun b => b ≠ 0

/-- The sandboxed path `sprintf(path, "vm_%d_", vm->id); strcat(path, ime)`
built in check_path_exists and create_local_copy (lines 441-442, 459-460). -/
def sandboxPath (vmId : Nat) (name : List Int) : List Int :=
  strBytes ("vm_" ++ toString vmId ++ "_") ++ name

/-- Reading a file node through its identifier (dereferencing a node pointer). -/
def getFile (s : GuestState) (i : Nat) : Option FileRec :=
  (s.heap.find? fun p => p.1 == i).map Prod.snd

/-- Overwriting the node with identifier `i` (mutation through the pointer). -/
def setFile (s : GuestState) (i : Nat) (r : FileRec) : GuestState :=
  { s with heap := s.heap.map fun p => if p.1 == i then (i, r) else p }

/-- start_file_operation (lines 402-416): after sem_wait on file_mutex the
guest holds the token; `vm->lock = operation`; if the operation is OPEN a
fresh file node is allocated, appended at the tail of the list (through
file_indirect) and made current. -/
def start_file_operation (s : GuestState) (operation : Int) : GuestState :=
  let s1 := { s with token := true, lock := operation }
  if operation = OPEN then
    { s1 with
      heap := s1.heap ++ [(s1.nextId, init_file)]
      files := s1.files ++ [s1.nextId]
      current := some s1.nextId
      nextId := s1.nextId + 1 }
  else s1

/-- end_file_operation (lines 424-430): sem_post (token released), lock = 0,
current_file = NULL. -/
def end_file_operation (s : GuestState) : GuestState :=
  { s with token := false, lock := 0, current := none }

/-- check_path_exists (lines 438-449): build the sandboxed path; if
`access(path, F_OK) == 0` return `open(path, flags, mode)`, else -1. -/
def check_path_exists (fs : HostFS) (s : GuestState) (r : FileRec) : Int :=
  let path := sandboxPath s.id (cString r.ime)
  if path ∈ fs.existing then fs.openFd path r.flags r.mode else -1

/-- create_local_copy (lines 456-463): `open(path, O_CREAT, 0777)` creates the
sandboxed path on the host (the returned descriptor is discarded by the
source). -/
def create_local_copy (fs : HostFS) (s : GuestState) (r : FileRec) : HostFS :=
  { fs with existing := sandboxPath s.id (cString r.ime) :: fs.existing }

/-- opened_file_op_flags (lines 472-497).  The first data dword is stored into
`flags` while `flags == -1`; otherwise the dword becomes `mode` and the path
is resolved: if check_path_exists yields a negative descriptor then either the
write-intent mask selects create_local_copy followed by a second
check_path_exists, or the raw name is opened from the host cwd; a nonnegative
descriptor from check_path_exists is used directly.  The branches where
`current_file` is NULL or dangling would dereference a null/stale pointer in
the C source; they are unreachable while `lock == OPEN` (see
c5_guest_lock_current) and are modelled as no-ops. -/
def opened_file_op_flags (fs : HostFS) (s : GuestState) (data : Int) :
    GuestState × HostFS :=
  match s.current with
  | none => (s, fs)
  | some i =>
    match getFile s i with
    | none => (s, fs)
    | some r =>
      if r.flags = -1 then
        (setFile s i { r with flags := data }, fs)
      else
        let r1 := { r with mode := data }
        let localFd := check_path_exists fs s r1
        if localFd < 0 then
          if Int.land r1.flags writeMask ≠ 0 then
            let fs2 := create_local_copy fs s r1
            (setFile s i { r1 with fd := check_path_exists fs2 s r1 }, fs2)
          else
            (setFile s i { r1 with fd := fs.openFd (cString r1.ime) r1.flags r1.mode }, fs)
        else
          (setFile s i { r1 with fd := localFd }, fs)

/-- opened_file_op_send_fd (lines 505-508): store `current_file->fd` into the
run region (the delivered dword is the second component) and end the
operation.  A NULL `current_file` would fault in C; unreachable while
`lock == OPEN`. -/
def opened_file_op_send_fd (s : GuestState) : GuestState × Option Int :=
  match s.current.bind (getFile s) with
  | some r => (end_file_operation s, some r.fd)
  | none => (end_file_operation s, none)

/-- opened_file_op_name (lines 517-520): `ime[cnt++] = data`, with no bound
check; the store is recorded by appending at position `cnt`. -/
def opened_file_op_name (s : GuestState) (data : Int) : GuestState :=
  match s.current with
  | none => s
  | some i =>
    match getFile s i with
    | none => s
    | some r => setFile s i { r with ime := r.ime ++ [data], cnt := r.cnt + 1 }

/-- get_file_descriptor (lines 529-539): scan the live list in order for the
first node with `fd == data` and make it current; otherwise leave the state
unchanged. -/
def get_file_descriptor (s : GuestState) (data : Int) : GuestState :=
  match s.files.find? (fun i =>
      match getFile s i with
      | some r => r.fd == data
      | none => false) with
  | some i => { s with current := some i }
  | none => s

/-- close_op_status (lines 547-565): status is -1 when `current_file` is NULL,
else `close(current_file->fd)`; the first list node pointer-equal to
`current_file` is unlinked; the status dword is delivered to the guest.
`current_file` itself is left dangling (it is freed but not cleared). -/
def close_op_status (fs : HostFS) (s : GuestState) : GuestState × Option Int :=
  let status : Int :=
    match s.current.bind (getFile s) with
    | none => -1
    | some r => fs.closeRes r.fd
  let files2 :=
    match s.current with
    | none => s.files
    | some i => s.files.erase i
  ({ s with files := files2 }, some status)

/-- read_file (lines 573-584): with no current file the EOF sentinel -1 is
stored for the guest; otherwise one byte is read from the host descriptor and
a short read stores EOF. -/
def read_file (fs : HostFS) (s : GuestState) : Option Int :=
  match s.current with
  | none => some (-1)
  | some i =>
    match getFile s i with
    | none => some (-1)
    | some r =>
      match fs.readByte r.fd with
      | some c => some c
      | none => some (-1)

/-- write_file (lines 593-601): with no current file the EOF sentinel is
stored into the run region; otherwise the byte goes to the host descriptor
(a host effect outside the per-guest state). -/
def write_file (s : GuestState) : Option Int :=
  match s.current with
  | none => some (-1)
  | some _ => none

/-- One guest message on port 0x278, classified as in handle_file by
direction and size (dword = sizeof(int), byte = sizeof(char)). -/
inductive FileMsg
  | outDword (data : Int)
  | outByte (data : Int)
  | inDword
  | inByte

/-- handle_file (lines 609-642), one step of the per-guest protocol machine.
Returns the new guest state, the new host filesystem, and the value (if any)
stored into the run region for the guest. -/
def handle_file (fs : HostFS) (s : GuestState) (m : FileMsg) :
    GuestState × HostFS × Option Int :=
  match m with
  | FileMsg.outDword data =>
    if s.lock = 0 then (start_file_operation s data, fs, none)
    else if s.lock = OPEN then
      let r := opened_file_op_flags fs s data
      (r.1, r.2, none)
    else if data = FINISH then (end_file_operation s, fs, none)
    else (get_file_descriptor s data, fs, none)
  | FileMsg.outByte data =>
    if s.lock = OPEN then (opened_file_op_name s data, fs, none)
    else if s.lock = WRITE then (s, fs, write_file s)
    else (s, fs, none)
  | FileMsg.inDword =>
    if s.lock = CLOSE then
      let r := close_op_status fs s
      (r.1, fs, r.2)
    else if s.lock = OPEN then
      let r := opened_file_op_send_fd s
      (r.1, fs, r.2)
    else (s, fs, none)
  | FileMsg.inByte =>
    if s.lock = READ then (s, fs, read_file fs s) else (s, fs, none)

/-- Run a sequence of guest messages through handle_file. -/
def runMsgs : HostFS → GuestState → List FileMsg → GuestState × HostFS
  | fs, s, [] => (s, fs)
  | fs, s, m :: ms =>
    let r := handle_file fs s m
    runMsgs r.2.1 r.1 ms

/-- Guest states reachable from initGuest by any sequence of port-0x278
messages, under arbitrary host oracles. -/
inductive ReachableG (vmId : Nat) : GuestState → Prop
  | init : ReachableG vmId (initGuest vmId)
  | step {s : GuestState} (fs : HostFS) (m : FileMsg) :
      ReachableG vmId s → ReachableG vmId (handle_file fs s m).1

/-! ### exit_io (lines 650-666) -/

/-- I/O exit direction (KVM_EXIT_IO_IN / KVM_EXIT_IO_OUT). -/
inductive IoDir
  | dirIn
  | dirOut
deriving DecidableEq

/-- The port and direction of an I/O exit, read from the shared run region. -/
structure IoExitInfo where
  direction : IoDir
  port : Nat
deriving DecidableEq

/-- Outcome of exit_io: `ret` is the value returned to the run loop, with
`none` meaning the function reached its end without executing any return
statement (the port 0x278 branch, lines 660-661, calls handle_file and then
falls off the end of the non-void function); `stored` is the byte stored at
`run_region + data_offset`, if any. -/
structure IoOutcome where
  ret : Option Int
  stored : Option Int
deriving DecidableEq, Repr

/-- exit_io (lines 650-666).  `ptyRead` is the byte delivered by
`read(vm->pty_master, &c, sizeof(char))` (`none` on a short read) and `c0` is
the indeterminate initial content of the local variable `c`, which the source
stores unchanged when the read is short because the return value of read is
never checked.  File-engine effects of the 0x278 branch are modelled by
handle_file; here only control flow is recorded. -/
def exit_io (e : IoExitInfo) (ptyRead : Option Int) (c0 : Int) : IoOutcome :=
  if e.direction = IoDir.dirOut ∧ e.port = 0xE9 then
    { ret := some 0, stored := none }
  else if e.direction = IoDir.dirIn ∧ e.port = 0xE9 then
    { ret := some 0
      stored := some (match ptyRead with | some b => b | none => c0) }
  else if e.port = 0x278 then
    { ret := none, stored := none }
  else
    { ret := some (-1), stored := none }

/-! ### init_hypervisor (nivoC lines 54-73, nivoA lines 45-65) -/

/-- The `struct hypervisor` fields. -/
structure KvmHyp where
  kvm_fd : Int
  kvm_run_mmap_size : Int
deriving DecidableEq, Repr

/-- Environment oracle for init_hypervisor: the result of
`open("/dev/kvm", O_RDWR)` and of `ioctl(fd, KVM_GET_VCPU_MMAP_SIZE, 0)`. -/
structure KvmEnv where
  openResult : Int
  mmapSizeResult : Int
deriving DecidableEq, Repr

/-- Outcome of init_hypervisor: return value, the hypervisor struct fields as
stored (starting from the caller-provided struct `h0`), and whether the
descriptor obtained from open (when the open succeeded) is still open when the
function returns. -/
structure InitOutcome where
  ret : Int
  hyp : KvmHyp
  fdStillOpen : Bool
deriving DecidableEq, Repr

/-- init_hypervisor of src/nivoC/mini_hypervisor.c (lines 54-73): on ioctl
failure it returns -1 WITHOUT closing `hypervisor->kvm_fd`. -/
def init_hypervisor_nivoC (h0 : KvmHyp) (env : KvmEnv) : InitOutcome :=
  let h1 := { h0 with kvm_fd := env.openResult }
  if env.openResult < 0 then { ret := -1, hyp := h1, fdStillOpen := false }
  else
    let h2 := { h1 with kvm_run_mmap_size := env.mmapSizeResult }
    if env.mmapSizeResult < 0 then { ret := -1, hyp := h2, fdStillOpen := true }
    else { ret := 0, hyp := h2, fdStillOpen := true }

/-- init_hypervisor of src/nivoA/mini_hypervisor.c (lines 45-65): on ioctl
failure it calls `close(hypervisor->kvm_fd)` before returning -1. -/
def init_hypervisor_nivoA (h0 : KvmHyp) (env : KvmEnv) : InitOutcome :=
  let h1 := { h0 with kvm_fd := env.openResult }
  if env.openResult < 0 then { ret := -1, hyp := h1, fdStillOpen := false }
  else
    let h2 := { h1 with kvm_run_mmap_size := env.mmapSizeResult }
    if env.mmapSizeResult < 0 then { ret := -1, hyp := h2, fdStillOpen := false }
    else { ret := 0, hyp := h2, fdStillOpen := true }

/-! ### Interleaving model of the file_mutex discipline (lines 369, 402-430) -/

/-- Phase of one guest thread with respect to a file operation: `idle` before
start_file_operation; `acquired op` after `sem_wait(&file_mutex)` returned but
before `vm->lock = operation` executed; `running op` once `vm->lock = op` is
set; `posted op` after `sem_post(&file_mutex)` in end_file_operation but
before `vm->lock = 0` executes (the source posts FIRST, lines 426-428). -/
inductive OpPhase
  | idle
  | acquired (op : Int)
  | running (op : Int)
  | posted (op : Int)
deriving DecidableEq, Repr

/-- The value of `vm->lock` visible in each phase. -/
def lockOf : OpPhase → Int
  | OpPhase.idle => 0
  | OpPhase.acquired _ => 0
  | OpPhase.running op => op
  | OpPhase.posted op => op

/-- Whether the guest currently holds the single-permit semaphore. -/
def holdsSem : OpPhase → Bool
  | OpPhase.acquired _ => true
  | OpPhase.running _ => true
  | _ => false

/-- Global state of `n` guest threads and the file_mutex semaphore
(`sem = true` when the permit is available). -/
structure SemState (n : Nat) where
  sem : Bool
  phase : Fin n → OpPhase

/-- Initial state after `sem_init(&file_mutex, 0, 1)`: permit available, all
guests idle. -/
def semInit (n : Nat) : SemState n :=
  { sem := true, phase := fun _ => OpPhase.idle }

/-- One atomic statement of the semaphore discipline, interleaved across guest
threads: `wait` is the return of `sem_wait` in start_file_operation (line
404), `setLock` is `vm->lock = operation` (line 405), `post` is `sem_post` in
end_file_operation (line 426), `clearLock` is `vm->lock = 0; vm->current_file
= NULL` (lines 427-428). -/
inductive SemStep (n : Nat) : SemState n → SemState n → Prop
  | wait (s : SemState n) (g : Fin n) (op : Int) :
      s.sem = true → s.phase g = OpPhase.idle →
      SemStep n s ⟨false, Function.update s.phase g (OpPhase.acquired op)⟩
  | setLock (s : SemState n) (g : Fin n) (op : Int) :
      s.phase g = OpPhase.acquired op →
      SemStep n s ⟨s.sem, Function.update s.phase g (OpPhase.running op)⟩
  | post (s : SemState n) (g : Fin n) (op : Int) :
      s.phase g = OpPhase.running op →
      SemStep n s ⟨true, Function.update s.phase g (OpPhase.posted op)⟩
  | clearLock (s : SemState n) (g : Fin n) (op : Int) :
      s.phase g = OpPhase.posted op →
      SemStep n s ⟨s.sem, Function.update s.phase g OpPhase.idle⟩

/-- States reachable from semInit by interleaved steps. -/
inductive SemReachable (n : Nat) : SemState n → Prop
  | init : SemReachable n (semInit n)
  | step {s t : SemState n} : SemReachable n s → SemStep n s t → SemReachable n t

/-! ### Concrete states used by counterexamples and witnesses -/

/-- A trivial host oracle: nothing exists, every open fails, reads are short. -/
def fs0 : HostFS :=
  { existing := [], openFd := fun _ _ _ => -1, closeRes := fun _ => 0
    readByte := fun _ => none }

/-- Host oracle for the C1 counterexample: the sandboxed path for guest 0 and
the empty name exists, but opening it fails (returns -1, e.g. EACCES), while
opening any other path (in particular the raw name in the cwd) returns 7. -/
def fsC1 : HostFS :=
  { existing := [sandboxPath 0 []]
    openFd := fun p _ _ => if p = sandboxPath 0 [] then -1 else 7
    closeRes := fun _ => 0
    readByte := fun _ => none }

/-- Guest 0 after a full OPEN message exchange with name "" (a lone null
byte), flags 0 (O_RDONLY) and mode 0, against fsC1. -/
def c1s : GuestState × HostFS :=
  runMsgs fsC1 (initGuest 0)
    [FileMsg.outDword 1, FileMsg.outByte 0, FileMsg.outDword 0, FileMsg.outDword 0]

/-- Guest 0 after the two dwords OPEN then flags 0, against fs0 (used by the
C1 witness: path resolution happens at the next dword). -/
def c1wState : GuestState :=
  (runMsgs fs0 (initGuest 0) [FileMsg.outDword 1, FileMsg.outDword 0]).1

/-- Guest 0 right after the single dword CLOSE: lock = CLOSE while
current_file is still NULL. -/
def c5state : GuestState :=
  (handle_file fs0 (initGuest 0) (FileMsg.outDword 2)).1

/-- Guest 0 after OPEN followed by a 49-byte filename and its null
terminator. -/
def c6runA : GuestState :=
  (runMsgs fs0 (initGuest 0)
    (FileMsg.outDword 1 :: (List.replicate 49 (FileMsg.outByte 97) ++ [FileMsg.outByte 0]))).1

/-- Guest 0 after OPEN followed by a 50-byte filename and its null
terminator (51 name bytes in total). -/
def c6runB : GuestState :=
  (runMsgs fs0 (initGuest 0)
    (FileMsg.outDword 1 :: (List.replicate 50 (FileMsg.outByte 97) ++ [FileMsg.outByte 0]))).1

/-- Guest 0 in an OPEN operation that received the dwords -1 and then 5. -/
def c10state : GuestState :=
  (runMsgs fs0 (initGuest 0)
    [FileMsg.outDword 1, FileMsg.outDword (-1), FileMsg.outDword 5]).1

/-- Guest 0 right after the dword OPEN (lock = OPEN, fresh empty file). -/
def c10w : GuestState :=
  (handle_file fs0 (initGuest 0) (FileMsg.outDword 1)).1

/-- Two-guest semaphore state reached when guest 0 has executed sem_post of
end_file_operation but not yet cleared its lock, while guest 1 has acquired
the permit and set its lock: both locks are non-IDLE at once. -/
def c4BadState : SemState 2 :=
  ⟨false,
    Function.update
      (Function.update
        (Function.update
          (Function.update
            (Function.update (semInit 2).phase 0 (OpPhase.acquired 1))
            0 (OpPhase.running 1))
          0 (OpPhase.posted 1))
        1 (OpPhase.acquired 2))
      1 (OpPhase.running 2)⟩

/-! ## Helper lemmas -/

/-- Bitwise or of a 2^n-aligned number with a value below 2^n is addition. -/
theorem two_pow_mul_lor (n k b : Nat) (hb : b < 2 ^ n) :
    2 ^ n * k ||| b = 2 ^ n * k + b := by
  apply Nat.eq_of_testBit_eq
  intro j
  rw [Nat.testBit_or, Nat.testBit_mul_pow_two_add k hb j, Nat.testBit_mul_pow_two]
  by_cases hj : j < n
  · simp [hj, Nat.not_le.mpr hj]
  · have hbj : b.testBit j = false :=
      Nat.testBit_lt_two_pow
        (lt_of_lt_of_le hb (Nat.pow_le_pow_right (by norm_num) (Nat.le_of_not_lt hj)))
    simp [hj, Nat.le_of_not_lt hj, hbj]

/-- Masking with a value below 2^n ignores 2^n-aligned summands. -/
theorem two_pow_mul_add_land (n k b c : Nat) (hb : b < 2 ^ n) (hc : c < 2 ^ n) :
    (2 ^ n * k + b) &&& c = b &&& c := by
  apply Nat.eq_of_testBit_eq
  intro j
  rw [Nat.testBit_and, Nat.testBit_and, Nat.testBit_mul_pow_two_add k hb j]
  by_cases hj : j < n
  · simp [hj]
  · have hcj : c.testBit j = false :=
      Nat.testBit_lt_two_pow
        (lt_of_lt_of_le hc (Nat.pow_le_pow_right (by norm_num) (Nat.le_of_not_lt hj)))
    simp [hj, hcj]

/-! ## C2 -/

/-- C2: for page_size = MiB2 and mem_size = n * 2 MiB with n ≥ 1,
setup_long_mode writes exactly the PD entries
PD[i] = PRESENT | RW | USER | PS | (0x200000 + i * 2MiB) for i < n - 1
(numerically 0x200000 + i * 2MiB + 0x87), writes no page tables, and returns
the image-load address 0x200000, which is the least 2 MiB boundary strictly
above 0x3000. -/
theorem c2_mb2_layout (n : Nat) (hn : 1 ≤ n) (L : PagingLayout)
    (hL : L = setup_long_mode (n * SIZE2MB) PageSize.MB2) :
    L.pd.length = n - 1 ∧
    (∀ i, i < n - 1 →
      L.pd.get? i =
        some (PDE64_PRESENT ||| PDE64_RW ||| PDE64_USER ||| PDE64_PS |||
          (0x200000 + i * SIZE2MB)) ∧
      L.pd.get? i = some (0x200000 + i * SIZE2MB + 0x87)) ∧
    L.pts = [] ∧
    L.loadAddr = 0x200000 ∧
    0x3000 < L.loadAddr ∧ L.loadAddr % SIZE2MB = 0 ∧
    (∀ a, 0x3000 < a → a % SIZE2MB = 0 → L.loadAddr ≤ a) := by
  subst hL
  have hdiv : n * SIZE2MB / SIZE2MB = n := Nat.mul_div_cancel n (by norm_num [SIZE2MB])
  have hpage : (0x3000 / SIZE2MB + 1) * SIZE2MB = 0x200000 := by norm_num [SIZE2MB]
  have hentry : ∀ i, i < n - 1 →
      (setup_long_mode (n * SIZE2MB) PageSize.MB2).pd.get? i =
        some (PDE64_PRESENT ||| PDE64_RW ||| PDE64_USER ||| PDE64_PS |||
          (0x200000 + i * SIZE2MB)) := by
    intro i hi
    simp only [setup_long_mode, hdiv, hpage, List.get?_map,
      List.get?_range hi, Option.map_some']
  refine ⟨?_, ?_, ?_, ?_, ?_, ?_, ?_⟩
  · simp [setup_long_mode, hdiv]
  · intro i hi
    refine ⟨hentry i hi, ?_⟩
    rw [hentry i hi]
    have h1 : PDE64_PRESENT ||| PDE64_RW ||| PDE64_USER ||| PDE64_PS = 0x87 := by decide
    have h2 : 0x200000 + i * SIZE2MB = 2 ^ 12 * (0x200 + i * 0x200) := by
      simp [SIZE2MB]; ring
    rw [h1, Nat.lor_comm, h2, two_pow_mul_lor 12 (0x200 + i * 0x200) 0x87 (by norm_num)]
  · rfl
  · simp [setup_long_mode, hpage]
  · simp [setup_long_mode, hpage]
  · simp [setup_long_mode, hpage, SIZE2MB]
  · intro a h1 h2
    simp only [setup_long_mode, hpage]
    simp [SIZE2MB] at h2
    omega

/-- Witness for c2_mb2_layout at n = 2 (a 4 MiB guest). -/
theorem c2_mb2_layout_witness :
    1 ≤ 2 ∧ (setup_long_mode (2 * SIZE2MB) PageSize.MB2).loadAddr = 0x200000 :=
  ⟨by decide, (c2_mb2_layout 2 (by decide) _ rfl).2.2.2.1⟩

/-! ## C3 helper lemmas -/

/-- Congruence for lists of page-table entries over an index range. -/
theorem map_pte_congr {c : Nat} {f g : Nat → Nat} (h : ∀ jj, jj < c → f jj = g jj) :
    (List.range c).map
        (fun jj => f jj ||| PDE64_PRESENT ||| PDE64_RW ||| PDE64_USER) =
      (List.range c).map
        (fun jj => g jj ||| PDE64_PRESENT ||| PDE64_RW ||| PDE64_USER) := by
  apply List.map_congr_left
  intro jj hjj
  rw [h jj (List.mem_range.mp hjj)]

/-- Closed form of the inner page-table fill loop: starting at `pa` it writes
`min fuel ((memSize + 0x1000 - pa) / 0x1000)` consecutive entries (one per
4 KiB frame with frame address at most `memSize`) and advances `page_address`
accordingly. -/
theorem fillPTgo_spec (memSize : Nat) : ∀ (fuel pa : Nat),
    fillPTgo fuel pa memSize =
      ((List.range (min fuel ((memSize + 0x1000 - pa) / 0x1000))).map
          (fun j => (pa + j * 0x1000) ||| PDE64_PRESENT ||| PDE64_RW ||| PDE64_USER),
        pa + min fuel ((memSize + 0x1000 - pa) / 0x1000) * 0x1000) := by
  intro fuel
  induction fuel with
  | zero => intro pa; simp [fillPTgo]
  | succ fuel ih =>
    intro pa
    by_cases hpa : pa > memSize
    · have hc : (memSize + 0x1000 - pa) / 0x1000 = 0 := Nat.div_eq_of_lt (by omega)
      simp [fillPTgo, hpa, hc]
    · have hc : (memSize + 0x1000 - pa) / 0x1000
          = (memSize + 0x1000 - (pa + 0x1000)) / 0x1000 + 1 := by
        have h1 : memSize + 0x1000 - pa = (memSize + 0x1000 - (pa + 0x1000)) + 0x1000 := by
          omega
        rw [h1, Nat.add_div_right _ (by norm_num)]
      simp only [fillPTgo, if_neg hpa]
      rw [ih (pa + 0x1000), hc, Nat.succ_min_succ]
      refine congrArg₂ Prod.mk ?_ (by omega)
      rw [List.range_succ_eq_map, List.map_cons, List.map_map]
      refine congrArg₂ List.cons (by norm_num) ?_
      simp only [Function.comp]
      exact map_pte_congr fun jj _ => by omega

/-- Closed form of the outer page-table loop.  `p0` is the address of the
first frame to map, `T` the total number of frames with address at most
`memSize` (exactly: `memSize + 0x1000 - p0 = T * 0x1000`), and the loop is
entered with `page_address = p0 + K * 0x1000` after `K` frames are already
consumed.  Table `j` of the result is based at the cleared-low-bits address of
the `j`-th PD entry and contains the next `min 512 (T - min (K + 512 * j) T)`
frames. -/
theorem ptLoop_spec (memSize p0 T : Nat) (hT : memSize + 0x1000 - p0 = T * 0x1000)
    (hp0 : p0 ≤ memSize + 0x1000) :
    ∀ (es : List Nat) (K : Nat), K ≤ T →
      (ptLoop es (p0 + K * 0x1000) memSize).2
          = p0 + min (K + 512 * es.length) T * 0x1000 ∧
      (ptLoop es (p0 + K * 0x1000) memSize).1.length = es.length ∧
      ∀ j, (ptLoop es (p0 + K * 0x1000) memSize).1.get? j =
        (es.get? j).map fun e =>
          (e / 0x1000 * 0x1000,
           (List.range (min 512 (T - min (K + 512 * j) T))).map
             fun jj => (p0 + (min (K + 512 * j) T + jj) * 0x1000) |||
               PDE64_PRESENT ||| PDE64_RW ||| PDE64_USER) := by
  intro es
  induction es with
  | nil =>
    intro K hK
    refine ⟨?_, rfl, fun j => by simp [ptLoop]⟩
    have h0 : min (K + 512 * ([] : List Nat).length) T = K := by
      simp only [List.length_nil]; omega
    rw [h0]
    rfl
  | cons e es ih =>
    intro K hK
    have hcnt : (memSize + 0x1000 - (p0 + K * 0x1000)) / 0x1000 = T - K := by
      have h1 : memSize + 0x1000 - (p0 + K * 0x1000) = (T - K) * 0x1000 := by omega
      rw [h1, Nat.mul_div_cancel _ (by norm_num)]
    have hfill := fillPTgo_spec memSize 512 (p0 + K * 0x1000)
    rw [hcnt] at hfill
    have harr : p0 + K * 0x1000 + min 512 (T - K) * 0x1000
        = p0 + (K + min 512 (T - K)) * 0x1000 := by omega
    obtain ⟨ih2, ihlen, ihget⟩ := ih (K + min 512 (T - K)) (by omega)
    simp only [ptLoop, hfill, harr]
    refine ⟨?_, ?_, ?_⟩
    · rw [ih2]
      have : min (K + min 512 (T - K) + 512 * es.length) T
          = min (K + 512 * (e :: es).length) T := by
        simp only [List.length_cons]; omega
      rw [this]
    · simp only [List.length_cons, List.length_map, ihlen]
    · intro j
      match j with
      | 0 =>
        simp only [List.get?_cons_zero, Option.map_some']
        have h0 : min (K + 512 * 0) T = K := by omega
        rw [h0]
        refine congrArg some (congrArg₂ Prod.mk rfl ?_)
        exact map_pte_congr fun jj _ => by omega
      | Nat.succ j =>
        simp only [List.get?_cons_succ, ihget j]
        have : min (K + min 512 (T - K) + 512 * j) T = min (K + 512 * (j + 1)) T := by
          omega
        rw [this]

/-- The concatenated page-table entries written by the outer loop map the
consecutive 4 KiB frames `p0 + K * 0x1000`, `p0 + (K+1) * 0x1000`, ... up to
the `T`-th frame or until the tables run out. -/
theorem ptLoop_flatten (memSize p0 T : Nat) (hT : memSize + 0x1000 - p0 = T * 0x1000)
    (hp0 : p0 ≤ memSize + 0x1000) :
    ∀ (es : List Nat) (K : Nat), K ≤ T →
      ((ptLoop es (p0 + K * 0x1000) memSize).1.map Prod.snd).flatten =
        (List.range (min (K + 512 * es.length) T - K)).map
          fun k => (p0 + (K + k) * 0x1000) |||
            PDE64_PRESENT ||| PDE64_RW ||| PDE64_USER := by
  intro es
  induction es with
  | nil =>
    intro K hK
    have h0 : min (K + 512 * ([] : List Nat).length) T - K = 0 := by
      simp only [List.length_nil]; omega
    simp [ptLoop, h0]
  | cons e es ih =>
    intro K hK
    have hcnt : (memSize + 0x1000 - (p0 + K * 0x1000)) / 0x1000 = T - K := by
      have h1 : memSize + 0x1000 - (p0 + K * 0x1000) = (T - K) * 0x1000 := by omega
      rw [h1, Nat.mul_div_cancel _ (by norm_num)]
    have hfill := fillPTgo_spec memSize 512 (p0 + K * 0x1000)
    rw [hcnt] at hfill
    have harr : p0 + K * 0x1000 + min 512 (T - K) * 0x1000
        = p0 + (K + min 512 (T - K)) * 0x1000 := by omega
    have ihj := ih (K + min 512 (T - K)) (by omega)
    simp only [ptLoop, hfill, harr, List.map_cons, List.flatten_cons, ihj]
    have htot : min (K + 512 * (e :: es).length) T - K
        = min 512 (T - K) + (min (K + min 512 (T - K) + 512 * es.length) T
            - (K + min 512 (T - K))) := by
      simp only [List.length_cons]; omega
    rw [htot, List.range_add, List.map_append]
    refine congrArg₂ List.append ?_ ?_
    · exact map_pte_congr fun jj _ => by omega
    · rw [List.map_map]
      simp only [Function.comp_def]
      exact map_pte_congr fun jj _ => by omega

/-! ## C3 -/

/-- C3: for page_size = KiB4 and mem_size = n * 2 MiB with n ≥ 1,
setup_long_mode writes PD[i] = PRESENT | RW | USER | (0x3000 + i * 4 KiB)
(numerically 0x3000 + i * 0x1000 + 7, with the PS bit clear) for every i < n;
the page table backing PD[i] is based at the incrementing 4 KiB-aligned
address 0x3000 + i * 0x1000; the tables, in PD order, are filled with up to
512 entries each, and their concatenation maps the successive 4 KiB frames
starting right after the page tables (0x3000 + n * 4 KiB) while the frame
address does not exceed mem_size; and the returned image-load address is
0x3000 + (mem_size / 2 MiB) * 4 KiB. -/
theorem c3_kb4_layout (n : Nat) (hn : 1 ≤ n) (L : PagingLayout)
    (hL : L = setup_long_mode (n * SIZE2MB) PageSize.KB4) :
    L.pd.length = n ∧
    (∀ i, i < n →
      L.pd.get? i =
        some (PDE64_PRESENT ||| PDE64_RW ||| PDE64_USER ||| (0x3000 + i * 0x1000)) ∧
      L.pd.get? i = some (0x3000 + i * 0x1000 + 7) ∧
      (0x3000 + i * 0x1000 + 7) &&& PDE64_PS = 0) ∧
    L.pts.length = n ∧
    (∀ i, i < n →
      L.pts.get? i = some
        (0x3000 + i * 0x1000,
         (List.range (min 512 (511 * n - 2 - min (512 * i) (511 * n - 2)))).map
           fun jj => (0x3000 + n * 0x1000 + (min (512 * i) (511 * n - 2) + jj) * 0x1000) |||
             PDE64_PRESENT ||| PDE64_RW ||| PDE64_USER)) ∧
    ((L.pts.map Prod.snd).flatten =
      (List.range (511 * n - 2)).map
        fun k => (0x3000 + n * 0x1000 + k * 0x1000) |||
          PDE64_PRESENT ||| PDE64_RW ||| PDE64_USER) ∧
    (∀ k, k < 511 * n - 2 → 0x3000 + n * 0x1000 + k * 0x1000 ≤ n * SIZE2MB) ∧
    n * SIZE2MB < 0x3000 + n * 0x1000 + (511 * n - 2) * 0x1000 ∧
    L.loadAddr = 0x3000 + n * 0x1000 := by
  subst hL
  have hdiv : n * SIZE2MB / SIZE2MB = n := Nat.mul_div_cancel n (by norm_num [SIZE2MB])
  have h7 : PDE64_PRESENT ||| PDE64_RW ||| PDE64_USER = 7 := by decide
  have hval : ∀ i : Nat,
      PDE64_PRESENT ||| PDE64_RW ||| PDE64_USER ||| (0x3000 + i * 0x1000)
        = 0x3000 + i * 0x1000 + 7 := by
    intro i
    have haddr : (0x3000 + i * 0x1000 : Nat) = 2 ^ 12 * (3 + i) := by norm_num; ring
    rw [h7, Nat.lor_comm, haddr, two_pow_mul_lor 12 (3 + i) 7 (by norm_num)]
  have hpd_entry : ∀ i, i < n →
      (setup_long_mode (n * SIZE2MB) PageSize.KB4).pd.get? i =
        some (PDE64_PRESENT ||| PDE64_RW ||| PDE64_USER ||| (0x3000 + i * 0x1000)) := by
    intro i hi
    simp only [setup_long_mode, hdiv, List.get?_map, List.get?_range hi, Option.map_some']
  have hT : n * SIZE2MB + 0x1000 - (0x3000 + n * 0x1000) = (511 * n - 2) * 0x1000 := by
    simp only [SIZE2MB]; omega
  have hp0 : 0x3000 + n * 0x1000 ≤ n * SIZE2MB + 0x1000 := by
    simp only [SIZE2MB]; omega
  have hbase : ∀ i : Nat, (0x3000 + i * 0x1000 + 7) / 0x1000 * 0x1000
      = 0x3000 + i * 0x1000 := by
    intro i
    have h1 : (0x3000 + i * 0x1000 + 7 : Nat) = 0x1000 * (3 + i) + 7 := by ring
    rw [h1, Nat.mul_add_div (by norm_num)]
    omega
  -- instantiate the loop lemmas at K = 0
  have hmain := ptLoop_spec (n * SIZE2MB) (0x3000 + n * 0x1000) (511 * n - 2) hT hp0
    ((List.range n).map fun i =>
      PDE64_PRESENT ||| PDE64_RW ||| PDE64_USER ||| (0x3000 + i * 0x1000))
    0 (Nat.zero_le _)
  have hflat := ptLoop_flatten (n * SIZE2MB) (0x3000 + n * 0x1000) (511 * n - 2) hT hp0
    ((List.range n).map fun i =>
      PDE64_PRESENT ||| PDE64_RW ||| PDE64_USER ||| (0x3000 + i * 0x1000))
    0 (Nat.zero_le _)
  simp only [Nat.zero_mul, Nat.add_zero, Nat.zero_add, List.length_map,
    List.length_range, Nat.sub_zero] at hmain hflat
  obtain ⟨hlast, hlen, hget⟩ := hmain
  refine ⟨?_, ?_, ?_, ?_, ?_, ?_, ?_, ?_⟩
  · simp [setup_long_mode, hdiv]
  · intro i hi
    refine ⟨hpd_entry i hi, ?_, ?_⟩
    · rw [hpd_entry i hi, hval i]
    · have haddr : (0x3000 + i * 0x1000 + 7 : Nat) = 2 ^ 12 * (3 + i) + 7 := by
        norm_num; ring
      rw [haddr, two_pow_mul_add_land 12 (3 + i) 7 PDE64_PS (by norm_num) (by decide)]
      decide
  · simp only [setup_long_mode, hdiv]
    exact hlen
  · intro i hi
    have h := hget i
    rw [List.get?_map, List.get?_range hi, Option.map_some', Option.map_some'] at h
    simp only [setup_long_mode, hdiv]
    rw [h, hval i, hbase i]
  · simp only [setup_long_mode, hdiv]
    rw [hflat]
    have hmin : min (512 * n) (511 * n - 2) = 511 * n - 2 := by omega
    rw [hmin]
  · intro k hk
    simp only [SIZE2MB]
    omega
  · simp only [SIZE2MB]
    omega
  · simp only [setup_long_mode, hdiv]

/-- Witness for c3_kb4_layout at n = 1 (a 2 MiB guest). -/
theorem c3_kb4_layout_witness :
    1 ≤ 1 ∧ (setup_long_mode (1 * SIZE2MB) PageSize.KB4).loadAddr = 0x3000 + 1 * 0x1000 :=
  ⟨by decide, (c3_kb4_layout 1 (by decide) _ rfl).2.2.2.2.2.2.2⟩

/-! ## File-engine frame lemmas -/

/-- setFile only touches the heap. -/
theorem setFile_frame (s : GuestState) (i : Nat) (r : FileRec) :
    (setFile s i r).lock = s.lock ∧ (setFile s i r).files = s.files ∧
    (setFile s i r).current = s.current ∧ (setFile s i r).token = s.token :=
  ⟨rfl, rfl, rfl, rfl⟩

/-- opened_file_op_flags leaves lock, files, current and token unchanged. -/
theorem opened_file_op_flags_frame (fs : HostFS) (s : GuestState) (data : Int) :
    (opened_file_op_flags fs s data).1.lock = s.lock ∧
    (opened_file_op_flags fs s data).1.files = s.files ∧
    (opened_file_op_flags fs s data).1.current = s.current ∧
    (opened_file_op_flags fs s data).1.token = s.token := by
  cases hc : s.current with
  | none => simp [opened_file_op_flags, hc]
  | some i =>
    cases hg : getFile s i with
    | none => simp [opened_file_op_flags, hc, hg]
    | some r =>
      simp only [opened_file_op_flags, hc, hg]
      split_ifs <;> simp [setFile, hc]

/-- opened_file_op_name leaves lock, files, current and token unchanged. -/
theorem opened_file_op_name_frame (s : GuestState) (data : Int) :
    (opened_file_op_name s data).lock = s.lock ∧
    (opened_file_op_name s data).files = s.files ∧
    (opened_file_op_name s data).current = s.current ∧
    (opened_file_op_name s data).token = s.token := by
  cases hc : s.current with
  | none => simp [opened_file_op_name, hc]
  | some i =>
    cases hg : getFile s i with
    | none => simp [opened_file_op_name, hc, hg]
    | some r => simp [opened_file_op_name, hc, hg, setFile]

/-- get_file_descriptor leaves lock, files and token unchanged. -/
theorem get_file_descriptor_frame (s : GuestState) (data : Int) :
    (get_file_descriptor s data).lock = s.lock ∧
    (get_file_descriptor s data).files = s.files ∧
    (get_file_descriptor s data).token = s.token := by
  unfold get_file_descriptor
  cases h : s.files.find? (fun i =>
      match getFile s i with
      | some r => r.fd == data
      | none => false) <;> simp

/-- close_op_status leaves lock, current and token unchanged. -/
theorem close_op_status_frame (fs : HostFS) (s : GuestState) :
    (close_op_status fs s).1.lock = s.lock ∧
    (close_op_status fs s).1.current = s.current ∧
    (close_op_status fs s).1.token = s.token :=
  ⟨rfl, rfl, rfl⟩

/-- opened_file_op_send_fd always steps to end_file_operation. -/
theorem opened_file_op_send_fd_state (s : GuestState) :
    (opened_file_op_send_fd s).1 = end_file_operation s := by
  unfold opened_file_op_send_fd
  cases s.current.bind (getFile s) <;> rfl

/-- Unfolding start_file_operation at operation = OPEN. -/
theorem start_file_operation_open (s : GuestState) :
    start_file_operation s OPEN =
      { s with
        token := true
        lock := OPEN
        heap := s.heap ++ [(s.nextId, init_file)]
        files := s.files ++ [s.nextId]
        current := some s.nextId
        nextId := s.nextId + 1 } := rfl

/-- Unfolding start_file_operation at a non-OPEN operation. -/
theorem start_file_operation_of_ne (s : GuestState) (op : Int) (h : op ≠ OPEN) :
    start_file_operation s op = { s with token := true, lock := op } := by
  unfold start_file_operation
  rw [if_neg h]

/-- One handle_file step preserves the per-guest lock/current invariant. -/
theorem guest_inv_step (fs : HostFS) (m : FileMsg) (s : GuestState)
    (h1 : s.lock = 0 → s.current = none)
    (h2 : s.lock = OPEN → ∃ i, s.current = some i ∧ i ∈ s.files) :
    ((handle_file fs s m).1.lock = 0 → (handle_file fs s m).1.current = none) ∧
    ((handle_file fs s m).1.lock = OPEN →
      ∃ i, (handle_file fs s m).1.current = some i ∧ i ∈ (handle_file fs s m).1.files) := by
  cases m with
  | outDword data =>
    by_cases hl0 : s.lock = 0
    · by_cases hop : data = OPEN
      · subst hop
        simp only [handle_file, if_pos hl0, start_file_operation_open]
        constructor
        · intro hz
          have hz2 : OPEN = (0 : Int) := hz
          exact absurd hz2 (by decide)
        · intro _
          exact ⟨s.nextId, rfl, by simp⟩
      · simp only [handle_file, if_pos hl0, start_file_operation_of_ne s data hop]
        constructor
        · intro _
          exact h1 hl0
        · intro hz
          exact absurd (hz : data = OPEN) hop
    · by_cases hl1 : s.lock = OPEN
      · obtain ⟨hfl, hff, hfc, -⟩ := opened_file_op_flags_frame fs s data
        simp only [handle_file, if_neg hl0, if_pos hl1]
        constructor
        · intro hz
          rw [hfl] at hz
          exact absurd hz hl0
        · intro _
          obtain ⟨i, hi, hm⟩ := h2 hl1
          exact ⟨i, by rw [hfc]; exact hi, by rw [hff]; exact hm⟩
      · by_cases hfin : data = FINISH
        · simp only [handle_file, if_neg hl0, if_neg hl1, if_pos hfin]
          constructor
          · intro _
            rfl
          · intro hz
            have hz2 : (0 : Int) = OPEN := hz
            exact absurd hz2 (by decide)
        · obtain ⟨hgl, hgf, -⟩ := get_file_descriptor_frame s data
          simp only [handle_file, if_neg hl0, if_neg hl1, if_neg hfin]
          constructor
          · intro hz
            rw [hgl] at hz
            exact absurd hz hl0
          · intro hz
            rw [hgl] at hz
            exact absurd hz hl1
  | outByte data =>
    by_cases hl1 : s.lock = OPEN
    · obtain ⟨hnl, hnf, hnc, -⟩ := opened_file_op_name_frame s data
      simp only [handle_file, if_pos hl1]
      constructor
      · intro hz
        rw [hnl] at hz
        rw [hz] at hl1
        exact absurd hl1 (by decide)
      · intro _
        obtain ⟨i, hi, hm⟩ := h2 hl1
        exact ⟨i, by rw [hnc]; exact hi, by rw [hnf]; exact hm⟩
    · by_cases hlw : s.lock = WRITE
      · simp only [handle_file, if_neg hl1, if_pos hlw]
        exact ⟨h1, h2⟩
      · simp only [handle_file, if_neg hl1, if_neg hlw]
        exact ⟨h1, h2⟩
  | inDword =>
    by_cases hlc : s.lock = CLOSE
    · obtain ⟨hcl, hcc, -⟩ := close_op_status_frame fs s
      simp only [handle_file, if_pos hlc]
      constructor
      · intro hz
        rw [hcl, hlc] at hz
        exact absurd hz (by decide)
      · intro hz
        rw [hcl, hlc] at hz
        exact absurd hz (by decide)
    · by_cases hl1 : s.lock = OPEN
      · simp only [handle_file, if_neg hlc, if_pos hl1, opened_file_op_send_fd_state]
        constructor
        · intro _
          rfl
        · intro hz
          have hz2 : (0 : Int) = OPEN := hz
          exact absurd hz2 (by decide)
      · simp only [handle_file, if_neg hlc, if_neg hl1]
        exact ⟨h1, h2⟩
  | inByte =>
    by_cases hlr : s.lock = READ
    · simp only [handle_file, if_pos hlr]
      exact ⟨h1, h2⟩
    · simp only [handle_file, if_neg hlr]
      exact ⟨h1, h2⟩

/-! ## C5 -/

/-- C5 (amended): in every reachable per-guest state, file_lock = IDLE implies
current_file = none, and file_lock = OPEN implies current_file points to a
member of the guest's file list.  (For CLOSE/READ/WRITE, current_file may
legitimately be none — e.g. right after the CLOSE opcode dword — which is what
the original claim forbids; see c5_close_start_violates.) -/
theorem c5_guest_lock_current (vmId : Nat) (s : GuestState) (h : ReachableG vmId s) :
    (s.lock = 0 → s.current = none) ∧
    (s.lock = OPEN → ∃ i, s.current = some i ∧ i ∈ s.files) := by
  induction h with
  | init =>
    refine ⟨fun _ => rfl, fun hz => ?_⟩
    have hz2 : (0 : Int) = OPEN := hz
    exact absurd hz2 (by decide)
  | step fs m hs ih => exact guest_inv_step fs m _ ih.1 ih.2

/-- Witness for c5_guest_lock_current: in the initial state of guest 0 the
lock is IDLE and current_file is none. -/
theorem c5_guest_lock_current_witness : (initGuest 0).current = none :=
  (c5_guest_lock_current 0 (initGuest 0) ReachableG.init).1 rfl

/-- Counterexample to C5 as stated: after the single dword CLOSE the guest
has file_lock = CLOSE ∈ {OPEN, CLOSE, READ, WRITE} while current_file is
still none (and the file list is empty), so the state satisfies neither
disjunct of the claimed invariant. -/
theorem c5_close_start_violates :
    ¬ ((c5state.lock = 0 ∧ c5state.current = none) ∨
       ((c5state.lock = OPEN ∨ c5state.lock = CLOSE ∨
         c5state.lock = READ ∨ c5state.lock = WRITE) ∧
        ∃ i, c5state.current = some i ∧ i ∈ c5state.files)) := by
  rintro (⟨hz, -⟩ | ⟨-, i, hi, -⟩)
  · have : c5state.lock = 2 := rfl
    rw [this] at hz
    exact absurd hz (by decide)
  · have : c5state.current = none := rfl
    rw [this] at hi
    exact Option.noConfusion hi

/-! ## C1 helper lemmas -/

/-- find? over the update map used by setFile returns the updated node. -/
theorem find_map_set (l : List (Nat × FileRec)) (i : Nat) (r2 : FileRec)
    (h : (l.find? fun p => p.1 == i).isSome = true) :
    ((l.map fun p => if p.1 == i then (i, r2) else p).find? fun p => p.1 == i)
      = some (i, r2) := by
  induction l with
  | nil => simp at h
  | cons a t ih =>
    cases ha : (a.1 == i) with
    | true =>
      simp only [List.map_cons, if_pos ha]
      exact List.find?_cons_of_pos _ (by simp)
    | false =>
      rw [List.map_cons, if_neg (show ¬((a.1 == i) = true) by simp [ha])]
      rw [List.find?_cons_of_neg _ (by simp [ha])]
      rw [List.find?_cons_of_neg _ (by simp [ha])] at h
      exact ih h

/-- Dereferencing a node after overwriting it through setFile. -/
theorem getFile_setFile (s : GuestState) (i : Nat) (r r2 : FileRec)
    (h : getFile s i = some r) :
    getFile (setFile s i r2) i = some r2 := by
  have hs : (s.heap.find? fun p => p.1 == i).isSome = true := by
    unfold getFile at h
    cases hf : s.heap.find? fun p => p.1 == i with
    | none => rw [hf] at h; simp at h
    | some a => rfl
  show ((s.heap.map fun p => if p.1 == i then (i, r2) else p).find?
      fun p => p.1 == i).map Prod.snd = some r2
  rw [find_map_set s.heap i r2 hs]
  rfl

/-- check_path_exists applied to the record with mode just stored. -/
theorem check_path_exists_mode (fs : HostFS) (s : GuestState) (r : FileRec) (data : Int) :
    check_path_exists fs s { r with mode := data } =
      if sandboxPath s.id (cString r.ime) ∈ fs.existing
      then fs.openFd (sandboxPath s.id (cString r.ime)) r.flags data
      else -1 := rfl

/-- After create_local_copy, re-opening the sandboxed path through
check_path_exists always reaches the open call (the path now exists). -/
theorem check_path_exists_created (fs : HostFS) (s : GuestState) (r : FileRec) (data : Int) :
    check_path_exists (create_local_copy fs s { r with mode := data }) s
        { r with mode := data } =
      fs.openFd (sandboxPath s.id (cString r.ime)) r.flags data := by
  simp [check_path_exists, create_local_copy]

/-! ## C1 -/

/-- C1 (amended): on the OPEN dword that stores `mode`, the engine resolves
the descriptor as follows.  If the sandboxed path exists AND opening it with
the guest's flags and mode succeeds (nonnegative descriptor), host_fd is that
descriptor and the host filesystem is unchanged.  If check_path_exists yields
a negative descriptor — because the sandboxed path does not exist, or because
the open of the existing sandboxed path itself fails — then with write intent
(flags & (O_RDWR|O_WRONLY|O_TRUNC|O_APPEND) ≠ 0) the engine creates the
sandboxed path and host_fd is the result of re-opening the sandboxed path;
without write intent host_fd is the result of opening the guest-supplied name
directly in the host cwd.  (The original claim keys the first case on bare
existence of the sandboxed file; see c1_exists_open_fail_fallback.) -/
theorem c1_open_resolution (fs : HostFS) (s : GuestState) (i : Nat) (r : FileRec)
    (data : Int) (hcur : s.current = some i) (hget : getFile s i = some r)
    (hflags : r.flags ≠ -1) :
    (sandboxPath s.id (cString r.ime) ∈ fs.existing →
      0 ≤ fs.openFd (sandboxPath s.id (cString r.ime)) r.flags data →
        getFile (opened_file_op_flags fs s data).1 i =
          some { r with
                 mode := data
                 fd := fs.openFd (sandboxPath s.id (cString r.ime)) r.flags data } ∧
        (opened_file_op_flags fs s data).2 = fs) ∧
    ((sandboxPath s.id (cString r.ime) ∉ fs.existing ∨
        fs.openFd (sandboxPath s.id (cString r.ime)) r.flags data < 0) →
      (Int.land r.flags writeMask ≠ 0 →
        getFile (opened_file_op_flags fs s data).1 i =
          some { r with
                 mode := data
                 fd := fs.openFd (sandboxPath s.id (cString r.ime)) r.flags data } ∧
        (opened_file_op_flags fs s data).2 =
          { fs with existing := sandboxPath s.id (cString r.ime) :: fs.existing }) ∧
      (Int.land r.flags writeMask = 0 →
        getFile (opened_file_op_flags fs s data).1 i =
          some { r with
                 mode := data
                 fd := fs.openFd (cString r.ime) r.flags data } ∧
        (opened_file_op_flags fs s data).2 = fs)) := by
  have hpf : ({ r with mode := data } : FileRec).flags = r.flags := rfl
  constructor
  · intro hmem hpos
    simp only [opened_file_op_flags, hcur, hget, if_neg hflags]
    rw [check_path_exists_mode, if_pos hmem, if_neg (not_lt.mpr hpos)]
    exact ⟨getFile_setFile s i r _ hget, rfl⟩
  · intro hneg
    have hlt : (if sandboxPath s.id (cString r.ime) ∈ fs.existing
        then fs.openFd (sandboxPath s.id (cString r.ime)) r.flags data else -1) < 0 := by
      rcases hneg with hnm | hlt2
      · rw [if_neg hnm]; decide
      · by_cases hmem : sandboxPath s.id (cString r.ime) ∈ fs.existing
        · rw [if_pos hmem]; exact hlt2
        · rw [if_neg hmem]; decide
    constructor
    · intro hw
      simp only [opened_file_op_flags, hcur, hget, if_neg hflags]
      rw [check_path_exists_mode, if_pos hlt, hpf, if_pos hw, check_path_exists_created]
      exact ⟨getFile_setFile s i r _ hget, rfl⟩
    · intro hw0
      simp only [opened_file_op_flags, hcur, hget, if_neg hflags]
      rw [check_path_exists_mode, if_pos hlt, hpf, if_neg (fun hh => hh hw0)]
      exact ⟨getFile_setFile s i r _ hget, rfl⟩

/-- Witness for c1_open_resolution: guest 0, empty name, flags 0 and mode 0
against the empty host fs0 — the read-only fallback opens the raw name in the
host cwd (here failing with -1). -/
theorem c1_open_resolution_witness :
    getFile (opened_file_op_flags fs0 c1wState 0).1 0 =
      some { init_file with flags := 0, mode := 0, fd := -1 } ∧
    (opened_file_op_flags fs0 c1wState 0).2 = fs0 := by
  have h := (c1_open_resolution fs0 c1wState 0 { init_file with flags := 0 } 0
      (by decide) (by decide) (by decide)).2 (Or.inl (by decide))
  exact h.2 (by decide)

/-- Counterexample to C1 as stated: guest 0 opens the empty filename with
flags = 0 (O_RDONLY, no write intent) and mode 0.  The sandboxed path
vm_0_ exists on the host, but opening it fails (open returns -1, e.g.
EACCES); the claim then demands host_fd = -1 (the result of opening the
sandboxed path), yet the engine falls through to the cwd fallback and the
guest receives descriptor 7. -/
theorem c1_exists_open_fail_fallback :
    sandboxPath 0 [] ∈ fsC1.existing ∧
    fsC1.openFd (sandboxPath 0 []) 0 0 = -1 ∧
    (getFile c1s.1 0).map FileRec.fd = some 7 ∧
    (7 : Int) ≠ -1 := by
  refine ⟨by decide, by decide, by decide, by decide⟩

/-! ## C10 -/

/-- The dword delivered to the guest by an IN while lock = OPEN is the
current file's descriptor. -/
theorem opened_file_op_send_fd_out (s : GuestState) (i : Nat) (r : FileRec)
    (hcur : s.current = some i) (hget : getFile s i = some r) :
    (opened_file_op_send_fd s).2 = some r.fd := by
  unfold opened_file_op_send_fd
  rw [hcur]
  simp only [Option.some_bind, hget]

/-- C10 (amended): while a guest's file_lock equals OPEN, every 32-bit OUT
dword on port 0x278 — including 0 (FINISH) — is consumed as operation data:
the lock stays OPEN, current_file stays put and the global token is not
released.  A dword arriving while flags is the unset sentinel -1 is stored
into flags (so a dword equal to -1 leaves flags unset, and the flags/mode
assignment skips leading -1 dwords — see c10_minus_one_flags); a dword
arriving once flags ≠ -1 is stored into mode (triggering path resolution).
The OPEN ends — lock and current_file cleared, token released, descriptor
delivered — only at the guest's IN dword. -/
theorem c10_open_consumes_dwords (fs : HostFS) (s : GuestState) (i : Nat) (r : FileRec)
    (d : Int) (hlock : s.lock = OPEN) (hcur : s.current = some i)
    (hget : getFile s i = some r) :
    (handle_file fs s (FileMsg.outDword d)).1.lock = OPEN ∧
    (handle_file fs s (FileMsg.outDword d)).1.current = some i ∧
    (handle_file fs s (FileMsg.outDword d)).1.token = s.token ∧
    (r.flags = -1 →
      getFile (handle_file fs s (FileMsg.outDword d)).1 i = some { r with flags := d }) ∧
    (r.flags ≠ -1 →
      (getFile (handle_file fs s (FileMsg.outDword d)).1 i).map FileRec.mode = some d) ∧
    (handle_file fs s FileMsg.inDword).1.lock = 0 ∧
    (handle_file fs s FileMsg.inDword).1.current = none ∧
    (handle_file fs s FileMsg.inDword).1.token = false ∧
    (handle_file fs s FileMsg.inDword).2.2 = some r.fd := by
  have hl0 : ¬ s.lock = 0 := by rw [hlock]; decide
  have hlc : ¬ s.lock = CLOSE := by rw [hlock]; decide
  obtain ⟨hfl, hff, hfc, hft⟩ := opened_file_op_flags_frame fs s d
  refine ⟨?_, ?_, ?_, ?_, ?_, ?_, ?_, ?_, ?_⟩
  · simp only [handle_file, if_neg hl0, if_pos hlock]
    rw [hfl, hlock]
  · simp only [handle_file, if_neg hl0, if_pos hlock]
    rw [hfc, hcur]
  · simp only [handle_file, if_neg hl0, if_pos hlock]
    exact hft
  · intro hfm
    simp only [handle_file, if_neg hl0, if_pos hlock]
    simp only [opened_file_op_flags, hcur, hget, if_pos hfm]
    exact getFile_setFile s i r _ hget
  · intro hfm
    simp only [handle_file, if_neg hl0, if_pos hlock]
    simp only [opened_file_op_flags, hcur, hget, if_neg hfm]
    rw [check_path_exists_mode]
    have hpf : ({ r with mode := d } : FileRec).flags = r.flags := rfl
    by_cases hlt : (if sandboxPath s.id (cString r.ime) ∈ fs.existing
        then fs.openFd (sandboxPath s.id (cString r.ime)) r.flags d else -1) < 0
    · rw [if_pos hlt, hpf]
      by_cases hw : Int.land r.flags writeMask ≠ 0
      · rw [if_pos hw, check_path_exists_created, getFile_setFile s i r _ hget]
        rfl
      · rw [if_neg hw, getFile_setFile s i r _ hget]
        rfl
    · rw [if_neg hlt, getFile_setFile s i r _ hget]
      rfl
  · simp only [handle_file, if_neg hlc, if_pos hlock, opened_file_op_send_fd_state]
    rfl
  · simp only [handle_file, if_neg hlc, if_pos hlock, opened_file_op_send_fd_state]
    rfl
  · simp only [handle_file, if_neg hlc, if_pos hlock, opened_file_op_send_fd_state]
    rfl
  · simp only [handle_file, if_neg hlc, if_pos hlock]
    exact opened_file_op_send_fd_out s i r hcur hget

/-- Witness for c10_open_consumes_dwords: right after OPEN, the FINISH dword
(0) is consumed as the flags value and the operation stays open. -/
theorem c10_open_consumes_dwords_witness :
    (handle_file fs0 c10w (FileMsg.outDword 0)).1.lock = OPEN ∧
    getFile (handle_file fs0 c10w (FileMsg.outDword 0)).1 0 =
      some { init_file with flags := 0 } :=
  ⟨(c10_open_consumes_dwords fs0 c10w 0 init_file 0 rfl rfl rfl).1,
   (c10_open_consumes_dwords fs0 c10w 0 init_file 0 rfl rfl rfl).2.2.2.1 rfl⟩

/-- Counterexample to C10 as stated: in an OPEN, the guest sends the dwords
-1 and then 5.  The claim says the second dword (5) is stored as
current_file.mode; the engine instead stores -1 into flags (leaving it equal
to the unset sentinel) and then stores 5 into flags, so mode is still -1. -/
theorem c10_minus_one_flags :
    (getFile c10state 0).map FileRec.flags = some 5 ∧
    (getFile c10state 0).map FileRec.mode = some (-1) ∧
    some ((-1 : Int)) ≠ some (5 : Int) := by
  refine ⟨by decide, by decide, by decide⟩

/-! ## C6 -/

set_option maxRecDepth 4000 in
/-- C6 evaluated on the code: a 49-byte filename plus null terminator leaves
cnt = 50 with all 50 stores inside the 50-byte ime buffer, but a 50-byte
filename plus null terminator drives cnt to 51 — the terminator is stored at
ime index 50, one byte past the 50-byte buffer (heap overflow) — and the
engine neither truncates nor rejects: the operation is still OPEN and no
host_fd = -1 is reported. -/
theorem c6_name_buffer_eval :
    (getFile c6runA 0).map FileRec.cnt = some 50 ∧
    ((getFile c6runA 0).map fun r => r.ime.length) = some 50 ∧
    (getFile c6runB 0).map FileRec.cnt = some 51 ∧
    ((getFile c6runB 0).map fun r => r.ime.length) = some 51 ∧
    c6runB.lock = OPEN ∧
    (getFile c6runB 0).map FileRec.fd = some (-1) ∧
    50 < 51 := by decide

/-! ## C7 -/

/-- C7 evaluated on the code: for an I/O exit on port 0x278 exit_io executes
no return statement at all (the 0x278 branch calls handle_file and falls off
the end of the non-void function, so its return value is undefined in C
rather than the claimed CONTINUE = 0), while port 0xE9 returns 0 and any
other port returns STOP_ERR = -1. -/
theorem c7_port278_no_return :
    (exit_io ⟨IoDir.dirOut, 0x278⟩ none 0).ret = none ∧
    (exit_io ⟨IoDir.dirIn, 0x278⟩ none 0).ret = none ∧
    (exit_io ⟨IoDir.dirOut, 0xE9⟩ none 0).ret = some 0 ∧
    (exit_io ⟨IoDir.dirIn, 0xE9⟩ none 0).ret = some 0 ∧
    (exit_io ⟨IoDir.dirOut, 0xBEEF⟩ none 0).ret = some (-1) ∧
    (exit_io ⟨IoDir.dirIn, 0x300⟩ none 0).ret = some (-1) := by decide

/-! ## C8 -/

/-- C8 evaluated on the code: on IN over port 0xE9 the byte read from
pty_master is stored for the guest, but on a short read the unchecked,
uninitialized local `c` (here 7) is stored unchanged — not the claimed EOF
sentinel -1. -/
theorem c8_console_in_short_read :
    (exit_io ⟨IoDir.dirIn, 0xE9⟩ (some 65) 7).stored = some 65 ∧
    (exit_io ⟨IoDir.dirIn, 0xE9⟩ none 7).stored = some 7 ∧
    some (7 : Int) ≠ some (-1 : Int) := by decide

/-! ## C9 -/

/-- C9 evaluated on the code: when open("/dev/kvm") yields fd 3 and the
KVM_GET_VCPU_MMAP_SIZE ioctl fails (-1), the nivoC init_hypervisor returns -1
while leaving the descriptor open, whereas the nivoA variant closes it before
returning; on success both fields are stored. -/
theorem c9_init_failure_leak :
    (init_hypervisor_nivoC ⟨0, 0⟩ ⟨3, -1⟩).ret = -1 ∧
    (init_hypervisor_nivoC ⟨0, 0⟩ ⟨3, -1⟩).fdStillOpen = true ∧
    (init_hypervisor_nivoA ⟨0, 0⟩ ⟨3, -1⟩).ret = -1 ∧
    (init_hypervisor_nivoA ⟨0, 0⟩ ⟨3, -1⟩).fdStillOpen = false ∧
    (init_hypervisor_nivoC ⟨0, 0⟩ ⟨3, 1024⟩).ret = 0 ∧
    (init_hypervisor_nivoC ⟨0, 0⟩ ⟨3, 1024⟩).hyp = ⟨3, 1024⟩ := by decide

/-! ## C4 -/

/-- C4 (amended): in every reachable interleaving of the per-statement steps
of start_file_operation / end_file_operation, at most one guest holds the
single-permit file_mutex semaphore at any instant, and while the permit is
available no guest holds it.  Because end_file_operation posts the semaphore
(line 426) BEFORE clearing vm->lock (line 427), a guest's file_lock can still
be non-IDLE after the release, so the non-IDLE intervals of two guests may
overlap in that window (see c4_overlap_counterexample); it is the
token-holding intervals, not the file_lock ≠ IDLE intervals, that are
disjoint. -/
theorem sem_inv_step (n : Nat) (s t : SemState n) (hstep : SemStep n s t)
    (ih1 : ∀ g1 g2 : Fin n, holdsSem (s.phase g1) = true → holdsSem (s.phase g2) = true →
      g1 = g2)
    (ih2 : s.sem = true → ∀ g : Fin n, holdsSem (s.phase g) = false) :
    (∀ g1 g2 : Fin n, holdsSem (t.phase g1) = true → holdsSem (t.phase g2) = true →
      g1 = g2) ∧
    (t.sem = true → ∀ g : Fin n, holdsSem (t.phase g) = false) := by
  cases hstep with
  | wait g op hsem hidle =>
    constructor
    · intro g1 g2 h1 h2
      rcases eq_or_ne g1 g with rfl | hne1
      · rcases eq_or_ne g2 g1 with rfl | hne2
        · rfl
        · rw [show (⟨false, Function.update s.phase g1 (OpPhase.acquired op)⟩ :
              SemState n).phase g2 = s.phase g2 from Function.update_noteq hne2 _ _] at h2
          rw [ih2 hsem g2] at h2
          exact Bool.noConfusion h2
      · rw [show (⟨false, Function.update s.phase g (OpPhase.acquired op)⟩ :
            SemState n).phase g1 = s.phase g1 from Function.update_noteq hne1 _ _] at h1
        rw [ih2 hsem g1] at h1
        exact Bool.noConfusion h1
    · intro hfalse _
      exact Bool.noConfusion hfalse
  | setLock g op hacq =>
    constructor
    · intro g1 g2 h1 h2
      have h1s : holdsSem (s.phase g1) = true := by
        rcases eq_or_ne g1 g with rfl | hne
        · rw [hacq]; rfl
        · rwa [show (⟨s.sem, Function.update s.phase g (OpPhase.running op)⟩ :
              SemState n).phase g1 = s.phase g1 from Function.update_noteq hne _ _] at h1
      have h2s : holdsSem (s.phase g2) = true := by
        rcases eq_or_ne g2 g with rfl | hne
        · rw [hacq]; rfl
        · rwa [show (⟨s.sem, Function.update s.phase g (OpPhase.running op)⟩ :
              SemState n).phase g2 = s.phase g2 from Function.update_noteq hne _ _] at h2
      exact ih1 g1 g2 h1s h2s
    · intro hsem _
      have hcontra := ih2 hsem g
      rw [hacq] at hcontra
      exact Bool.noConfusion hcontra
  | post g op hrun =>
    have hnone : ∀ g' : Fin n,
        holdsSem (Function.update s.phase g (OpPhase.posted op) g') = true → False := by
      intro g' hh
      rcases eq_or_ne g' g with rfl | hne
      · rw [Function.update_same] at hh
        exact Bool.noConfusion hh
      · rw [Function.update_noteq hne _ _] at hh
        exact hne (ih1 g' g hh (by rw [hrun]; rfl))
    constructor
    · intro g1 g2 h1 _
      exact absurd h1 (fun hh => hnone g1 hh)
    · intro _ g'
      cases hb : holdsSem (Function.update s.phase g (OpPhase.posted op) g') with
      | false => rfl
      | true => exact absurd hb (fun hh => hnone g' hh)
  | clearLock g op hpost =>
    constructor
    · intro g1 g2 h1 h2
      have h1s : holdsSem (s.phase g1) = true := by
        rcases eq_or_ne g1 g with rfl | hne
        · rw [show (⟨s.sem, Function.update s.phase g1 OpPhase.idle⟩ :
              SemState n).phase g1 = OpPhase.idle from Function.update_same _ _ _] at h1
          exact Bool.noConfusion h1
        · rwa [show (⟨s.sem, Function.update s.phase g OpPhase.idle⟩ :
              SemState n).phase g1 = s.phase g1 from Function.update_noteq hne _ _] at h1
      have h2s : holdsSem (s.phase g2) = true := by
        rcases eq_or_ne g2 g with rfl | hne
        · rw [show (⟨s.sem, Function.update s.phase g2 OpPhase.idle⟩ :
              SemState n).phase g2 = OpPhase.idle from Function.update_same _ _ _] at h2
          exact Bool.noConfusion h2
        · rwa [show (⟨s.sem, Function.update s.phase g OpPhase.idle⟩ :
              SemState n).phase g2 = s.phase g2 from Function.update_noteq hne _ _] at h2
      exact ih1 g1 g2 h1s h2s
    · intro hsem g'
      rcases eq_or_ne g' g with rfl | hne
      · rw [show (⟨s.sem, Function.update s.phase g' OpPhase.idle⟩ :
            SemState n).phase g' = OpPhase.idle from Function.update_same _ _ _]
        rfl
      · rw [show (⟨s.sem, Function.update s.phase g OpPhase.idle⟩ :
            SemState n).phase g' = s.phase g' from Function.update_noteq hne _ _]
        exact ih2 (by exact hsem) g'

/-- C4 (amended): in every reachable interleaving of the per-statement steps
of start_file_operation / end_file_operation, at most one guest holds the
single-permit file_mutex semaphore at any instant, and while the permit is
available no guest holds it.  Because end_file_operation posts the semaphore
(line 426) BEFORE clearing vm->lock (line 427), a guest's file_lock can still
be non-IDLE after the release, so the non-IDLE intervals of two guests may
overlap in that window (see c4_overlap_counterexample); it is the
token-holding intervals, not the file_lock ≠ IDLE intervals, that are
disjoint. -/
theorem c4_semaphore_mutex (n : Nat) (s : SemState n) (h : SemReachable n s) :
    (∀ g1 g2 : Fin n, holdsSem (s.phase g1) = true → holdsSem (s.phase g2) = true →
      g1 = g2) ∧
    (s.sem = true → ∀ g : Fin n, holdsSem (s.phase g) = false) := by
  induction h with
  | init =>
    constructor
    · intro g1 g2 h1 _
      have h1b : (false : Bool) = true := h1
      exact Bool.noConfusion h1b
    · intro _ g
      rfl
  | step hr hstep ih => exact sem_inv_step n _ _ hstep ih.1 ih.2

/-- Witness for c4_semaphore_mutex: in the initial two-guest state the permit
is available and guest 0 holds nothing. -/
theorem c4_semaphore_mutex_witness : holdsSem ((semInit 2).phase 0) = false :=
  (c4_semaphore_mutex 2 (semInit 2) SemReachable.init).2 rfl 0

/-- Counterexample to C4 as stated: the state c4BadState is reachable —
guest 0 runs an operation to completion but is interrupted between the
sem_post and the `vm->lock = 0` of end_file_operation, while guest 1 acquires
the freshly posted permit and sets its own lock — and in it BOTH guests have
file_lock ≠ IDLE at the same instant, so the non-IDLE intervals of distinct
guests are not disjoint. -/
theorem c4_overlap_counterexample :
    SemReachable 2 c4BadState ∧
    lockOf (c4BadState.phase 0) ≠ 0 ∧ lockOf (c4BadState.phase 1) ≠ 0 := by
  refine ⟨?_, by decide, by decide⟩
  have r0 : SemReachable 2 (semInit 2) := SemReachable.init
  have r1 := r0.step (SemStep.wait (semInit 2) 0 1 rfl rfl)
  have r2 := r1.step (SemStep.setLock _ 0 1 (by decide))
  have r3 := r2.step (SemStep.post _ 0 1 (by decide))
  have r4 := r3.step (SemStep.wait _ 1 2 rfl (by decide))
  have r5 := r4.step (SemStep.setLock _ 1 2 (by decide))
  exact r5
